import Mathlib

/-!
Verification of two MultiQC parser components against their sources:

* `multiqc/modules/prokka/prokka.py` — `MultiqcModule.parse_prokka` and the
  surrounding `__init__` aggregation loop;
* `multiqc/modules/dragen/rna_transcript_cov.py` — `parse_rna_transcript_cov`
  and `add_rna_transcript_coverage`.

The Python code is shallowly embedded: Python dicts become ordered
association lists (`pyInsert` / `pyLookup`), the logger becomes counters in
an explicit state, raised exceptions become an `Option PyExn` / `Except PyExn`
result, and the builtins `int`, `float`, `str.split`, `str.strip`,
`str.startswith`, `str.splitlines` are modelled by executable Lean functions
over `List Char`.  External collaborators (sample-name cleaning, the ignore
list, the config object) are parameters, matching the spec's description of
them as opaque collaborators.
-/

/-! ### Python string builtins -/

/-- Python whitespace, as used by `str.strip()` and `str.split()`
(ASCII subset; unicode whitespace is not modelled and does not occur in the
inputs considered below). -/
def pyIsSpace (c : Char) : Bool :=
  c = ' ' || c = '\t' || c = '\n' || c = '\r' || c = '\x0b' || c = '\x0c'

/-- Helper for `pySplitChar`: split a character list at every occurrence of
`sep`, keeping empty fields (Python `s.split(sep)` semantics). -/
def splitCharAux (sep : Char) : List Char → List Char → List (List Char)
  | [], acc => [acc.reverse]
  | c :: cs, acc =>
    if c = sep then acc.reverse :: splitCharAux sep cs []
    else splitCharAux sep cs (c :: acc)

/-- Python `s.split(sep)` for a one-character separator:
`"".split(":") == [""]`, separators at either end produce empty fields. -/
def pySplitChar (sep : Char) (s : String) : List String :=
  (splitCharAux sep s.toList []).map List.asString

/-- Helper for `pySplitChar1`: split only at the first occurrence of `sep`. -/
def splitChar1Aux (sep : Char) : List Char → List Char → List (List Char)
  | [], acc => [acc.reverse]
  | c :: cs, acc =>
    if c = sep then [acc.reverse, cs]
    else splitChar1Aux sep cs (c :: acc)

/-- Python `s.split(sep, 1)`: split at the first occurrence only. -/
def pySplitChar1 (sep : Char) (s : String) : List String :=
  (splitChar1Aux sep s.toList []).map List.asString

/-- Helper for `pyWSplit`: split on runs of whitespace, dropping empties. -/
def wsplitAux : List Char → List Char → List (List Char)
  | [], acc => if acc.isEmpty then [] else [acc.reverse]
  | c :: cs, acc =>
    if pyIsSpace c then
      if acc.isEmpty then wsplitAux cs [] else acc.reverse :: wsplitAux cs []
    else wsplitAux cs (c :: acc)

/-- Python `s.split()` with no argument: split on whitespace runs, no empty
fields. -/
def pyWSplit (s : String) : List String :=
  (wsplitAux s.toList []).map List.asString

/-- Python `s.strip()`. -/
def pyStrip (s : String) : String :=
  (((s.toList.dropWhile pyIsSpace).reverse.dropWhile pyIsSpace).reverse).asString

/-- Python `s.startswith(p)`. -/
def pyStartsWith (s p : String) : Bool :=
  List.isPrefixOf p.toList s.toList

/-- Python `str.splitlines()`; only `\n` line terminators are modelled (the
log files under consideration are `\n`-terminated). -/
def pySplitlines (s : String) : List String :=
  if s.toList.isEmpty then []
  else
    let parts := splitCharAux '\n' s.toList []
    (if s.toList.getLast? = some '\n' then parts.dropLast else parts).map List.asString

/-- Value of a digit list read in base 10 (meaningful when all characters are
digits). -/
def digitsFold (cs : List Char) : Nat :=
  cs.foldl (fun a c => a * 10 + (c.toNat - '0'.toNat)) 0

/-- Parse a nonempty all-digit character list. -/
def digitsToNat (cs : List Char) : Option Nat :=
  if cs.isEmpty then none
  else if cs.all Char.isDigit then some (digitsFold cs) else none

/-- Python `int(str)`: strip whitespace, optional sign, decimal digits.
Underscore digit grouping and non-ASCII digits are not modelled (they do not
occur in the inputs considered below). -/
def pyInt (s : String) : Option Int :=
  match (pyStrip s).toList with
  | '+' :: cs => (digitsToNat cs).map Int.ofNat
  | '-' :: cs => (digitsToNat cs).map (fun n => -(n : Int))
  | cs => (digitsToNat cs).map Int.ofNat

/-- Euclid's algorithm with explicit fuel (structural recursion, so that
concrete evaluation reduces in the kernel); the first argument strictly
decreases each step, so `a + 1` fuel always suffices. -/
def natGcdFuel : Nat → Nat → Nat → Nat
  | 0, a, b => a + b
  | fuel + 1, a, b => match a with
    | 0 => b
    | _ => natGcdFuel fuel (b % a) a

/-- Greatest common divisor (computable by kernel reduction). -/
def pyGcd (a b : Nat) : Nat := natGcdFuel (a + 1) a b

/-- An exact rational: numerator and positive denominator in lowest terms.
Used for the value of a parsed float literal; two decimal literals denote
equal Python floats iff their exact values agree (binary rounding is not
modelled; it does not matter for the short literals in these logs). -/
structure PyRat where
  num : Int
  den : Nat
deriving DecidableEq, Repr

/-- Normalize `n / d` to lowest terms (callers always pass `d > 0`). -/
def mkPyRat (n : Int) (d : Nat) : PyRat :=
  let g := pyGcd n.natAbs d
  if g = 0 then ⟨0, 0⟩
  else ⟨n / (g : Int), d / g⟩

/-- Negation keeps lowest terms. -/
def pyRatNeg (r : PyRat) : PyRat := ⟨-r.num, r.den⟩

/-- Split a mantissa from an optional exponent part at the first `e`/`E`. -/
def splitExpAux : List Char → List Char → List Char × Option (List Char)
  | [], acc => (acc.reverse, none)
  | c :: cs, acc =>
    if c = 'e' || c = 'E' then (acc.reverse, some cs)
    else splitExpAux cs (c :: acc)

/-- Parse `digits`, `digits.digits`, `digits.` or `.digits` into
(scaled integer value, number of fractional digits). -/
def parseMantissa (cs : List Char) : Option (Nat × Nat) :=
  match splitChar1Aux '.' cs [] with
  | [whole] =>
    if !whole.isEmpty && whole.all Char.isDigit then some (digitsFold whole, 0)
    else none
  | [whole, frac] =>
    if (whole ++ frac).isEmpty then none
    else if whole.all Char.isDigit && frac.all Char.isDigit then
      some (digitsFold (whole ++ frac), frac.length)
    else none
  | _ => none

/-- Parse an exponent: optional sign then digits. -/
def parseExp (cs : List Char) : Option Int :=
  match cs with
  | '+' :: ds => (digitsToNat ds).map Int.ofNat
  | '-' :: ds => (digitsToNat ds).map (fun n => -(n : Int))
  | ds => (digitsToNat ds).map Int.ofNat

/-- Unsigned part of `pyFloat`: the exact value `mantissa * 10 ^ exponent`. -/
def pyFloatCore (cs : List Char) : Option PyRat :=
  let parts := splitExpAux cs []
  match parseMantissa parts.1 with
  | none => none
  | some vk =>
    match parts.2 with
    | none => some (mkPyRat (vk.1 : Int) ((10 : Nat) ^ vk.2))
    | some ec =>
      match parseExp ec with
      | none => none
      | some (Int.ofNat m) =>
        some (mkPyRat ((vk.1 : Int) * (10 : Int) ^ m) ((10 : Nat) ^ vk.2))
      | some (Int.negSucc m) =>
        some (mkPyRat (vk.1 : Int) ((10 : Nat) ^ (vk.2 + (m + 1))))

/-- Python `float(str)` for finite decimal literals, as an exact rational.
`inf` / `nan` literals and underscore grouping are not modelled (they count as
failures here; no claim below depends on them), and binary rounding is not
applied: values are kept exact. -/
def pyFloat (s : String) : Option PyRat :=
  match (pyStrip s).toList with
  | '+' :: cs => pyFloatCore cs
  | '-' :: cs => (pyFloatCore cs).map pyRatNeg
  | cs => pyFloatCore cs

/-! ### Python dicts as ordered association lists -/

/-- Python `d[k] = v`: replace the value at the first matching key in place,
or append a new binding.  Keys stay unique and insertion-ordered. -/
def pyInsert {κ α : Type} [DecidableEq κ] (d : List (κ × α)) (k : κ) (v : α) :
    List (κ × α) :=
  match d with
  | [] => [(k, v)]
  | p :: ps => if p.1 = k then (k, v) :: ps else p :: pyInsert ps k v

/-- Python `d.get(k)` / `d[k]` lookup: value at the first matching key. -/
def pyLookup {κ α : Type} [DecidableEq κ] (d : List (κ × α)) (k : κ) : Option α :=
  match d with
  | [] => none
  | p :: ps => if p.1 = k then some p.2 else pyLookup ps k

/-- Python `k in d`. -/
def hasKey {κ α : Type} [DecidableEq κ] (d : List (κ × α)) (k : κ) : Bool :=
  match d with
  | [] => false
  | p :: ps => decide (p.1 = k) || hasKey ps k

/-- `self.ignore_samples(...)`: drop the samples the external ignore list
matches (the matcher is an opaque collaborator, passed as a predicate). -/
def ignoreSamples {α : Type} (ignore : String → Bool) (d : List (String × α)) :
    List (String × α) :=
  d.filter (fun p => !(ignore p.1))

/-! ### Data model for the prokka module -/

/-- A parsed field value: `organism` holds a string, every other stored field
holds a Python int. -/
inductive PVal where
  | str (s : String)
  | int (n : Int)
deriving DecidableEq, Repr

/-- One SampleRecord: field name to value, insertion-ordered. -/
abbrev Record := List (String × PVal)

/-- A discovered log file as the search collaborator hands it over:
its content as a list of lines and the externally derived default sample name
`f["s_name"]`.  Real lines carry a trailing newline; it is stripped here,
which is sound because every use in `parse_prokka` (startswith, strip,
whitespace split, colon split followed by `int`) is insensitive to it. -/
structure FileDescr where
  lines : List String
  s_name : String
deriving DecidableEq, Repr

/-- A raised Python exception. -/
inductive PyExn where
  | valueError (msg : String)
  | attributeError (msg : String)
deriving DecidableEq, Repr

/-- The runtime type of `config.use_filename_as_sample_name`: either a list of
module anchors or a boolean. -/
inductive UfasnSetting where
  | ofList (anchors : List String)
  | ofBool (b : Bool)
deriving DecidableEq, Repr

/-- The configuration options `parse_prokka` and `__init__` read. -/
structure Config where
  use_filename_as_sample_name : UfasnSetting
  prokka_fn_snames : Bool
  prokka_table : Bool
  prokka_barplot : Bool
deriving DecidableEq, Repr

/-- Module state: the accumulated `self.prokka` mapping plus the observable
logging side effects (counters) and `add_data_source` calls. -/
structure ProkkaState where
  prokka : List (String × Record)
  lineWarnings : Nat
  depWarnings : Nat
  dupDebugs : Nat
  dataSources : List String
deriving DecidableEq, Repr

/-- `self.prokka = dict()` and no log output yet. -/
def initProkkaState : ProkkaState := ⟨[], 0, 0, 0, []⟩

/-- `f.readline()`: next line, or `""` at end of file. -/
def readline : List String → String × List String
  | [] => ("", [])
  | l :: ls => (l, ls)

/-- The first three `readline` calls of `parse_prokka` and the lines left for
the trailing `for line in f["f"]` loop. -/
structure ProkkaHead where
  l1 : String
  l2 : String
  l3 : String
  rest : List String
deriving DecidableEq, Repr

/-- Read the three signature lines. -/
def prokkaHeader (f : FileDescr) : ProkkaHead :=
  let p1 := readline f.lines
  let p2 := readline p1.2
  let p3 := readline p2.2
  ⟨p1.1, p2.1, p3.1, p3.2⟩

/-- The three-line signature check of `parse_prokka`. -/
def prokkaAccepts (f : FileDescr) : Bool :=
  pyStartsWith (prokkaHeader f).l1 "organism:" &&
  pyStartsWith (prokkaHeader f).l2 "contigs:" &&
  pyStartsWith (prokkaHeader f).l3 "bases:"

/-- `s.split(":", 1)[1]`.  Under the signature check the line contains a
colon, so index 1 exists; `""` is an unreachable default. -/
def colonTail1 (s : String) : String :=
  (pySplitChar1 ':' s).getD 1 ""

/-- `s.split(":")[1]`.  Same remark about the default. -/
def colonIndex1 (s : String) : String :=
  (pySplitChar ':' s).getD 1 ""

/-- `organism = " ".join(first_line.strip().split(":", 1)[1].split()[:2])`.
The `except KeyError:` fallback in the source is unreachable: these list
operations can only raise `IndexError`, and under the signature check index 1
of the colon split exists; so the fallback is not modelled. -/
def prokkaOrganism (l1 : String) : String :=
  String.intercalate " " ((pyWSplit (colonTail1 (pyStrip l1))).take 2)

/-- `s_name = self.clean_s_name(" ".join(first_line.split()[3:]), f)`; the
cleaning function is an external collaborator. -/
def prokkaContentName (clean : String → String) (l1 : String) : String :=
  clean (String.intercalate " " ((pyWSplit l1).drop 3))

/-- The `should_use_filename` chain of `parse_prokka`.  First component: use
`f["s_name"]`.  Second component: the deprecated-option warning is emitted.
Note the source's `elif` structure: when the config value is a list, the
boolean branches (including the deprecated `prokka_fn_snames` check) are
never evaluated. -/
def prokkaUseFilename (cfg : Config) : Bool × Bool :=
  match cfg.use_filename_as_sample_name with
  | .ofList anchors => (anchors.contains "prokka", false)
  | .ofBool b =>
    if b then (true, false)
    else if cfg.prokka_fn_snames then (true, true)
    else (false, false)

/-- The sample name the record is stored under. -/
def prokkaSampleName (cfg : Config) (clean : String → String) (f : FileDescr) :
    String :=
  if (prokkaUseFilename cfg).1 then f.s_name
  else prokkaContentName clean (prokkaHeader f).l1

/-- `log.warning(...)` for the deprecated `prokka_fn_snames` option, emitted
when the corresponding branch of the chain is taken. -/
def bumpDep (b : Bool) (st : ProkkaState) : ProkkaState :=
  if b then { st with depWarnings := st.depWarnings + 1 } else st

/-- `log.debug(f"Duplicate sample name found! ...")`, emitted when the name
is already present. -/
def bumpDup (b : Bool) (st : ProkkaState) : ProkkaState :=
  if b then { st with dupDebugs := st.dupDebugs + 1 } else st

/-- `self.prokka[s][k] = v` for an existing sample `s` (the `.getD []`
default is unreachable: every call site has just inserted the record). -/
def setField (st : ProkkaState) (s k : String) (v : PVal) : ProkkaState :=
  { st with prokka := pyInsert st.prokka s (pyInsert ((pyLookup st.prokka s).getD []) k v) }

/-- The trailing loop of `parse_prokka`:
`for line in f["f"]: description, value = line.split(":"); try: ... int(value)
... except ValueError: warn`.  The tuple unpacking itself is outside the
`try`, so a line whose colon split does not have exactly two parts raises an
uncaught `ValueError`. -/
def prokkaExtraLines (s : String) : List String → ProkkaState → ProkkaState × Option PyExn
  | [], st => (st, none)
  | line :: rest, st =>
    match pySplitChar ':' line with
    | [d, v] =>
      match pyInt v with
      | some n => prokkaExtraLines s rest (setField st s d (.int n))
      | none => prokkaExtraLines s rest { st with lineWarnings := st.lineWarnings + 1 }
    | _ => (st, some (.valueError "unpack"))

/-- `self.prokka[s_name] = dict()` followed by
`self.prokka[s_name]["organism"] = organism`. -/
def prokkaNewRecord (st : ProkkaState) (s organism : String) : ProkkaState :=
  setField { st with prokka := pyInsert st.prokka s [] } s "organism" (.str organism)

/-- The tail of `parse_prokka`: run the trailing key:value loop and, if it
did not raise, `self.add_data_source(f, s_name)`. -/
def prokkaFinish (s : String) (rest : List String) (st5 : ProkkaState) :
    ProkkaState × Option PyExn :=
  match prokkaExtraLines s rest st5 with
  | (st6, some e) => (st6, some e)
  | (st6, none) => ({ st6 with dataSources := st6.dataSources ++ [s] }, none)

/-- `MultiqcModule.parse_prokka`.  Returns the state after the call plus the
uncaught exception, if one was raised. -/
def parse_prokka (cfg : Config) (clean : String → String) (f : FileDescr)
    (st : ProkkaState) : ProkkaState × Option PyExn :=
  if prokkaAccepts f then
    let hd := prokkaHeader f
    let organism := prokkaOrganism hd.l1
    let st1 := bumpDep (prokkaUseFilename cfg).2 st
    let sName := prokkaSampleName cfg clean f
    let st2 := bumpDup (hasKey st1.prokka sName) st1
    let st3 := prokkaNewRecord st2 sName organism
    match pyInt (colonIndex1 hd.l2) with
    | none => (st3, some (.valueError "invalid literal for int - contigs"))
    | some c =>
      let st4 := setField st3 sName "contigs" (.int c)
      match pyInt (colonIndex1 hd.l3) with
      | none => (st4, some (.valueError "invalid literal for int - bases"))
      | some b =>
        let st5 := setField st4 sName "bases" (.int b)
        prokkaFinish sName hd.rest st5
  else (st, none)

/-- The parsing loop of `MultiqcModule.__init__`: parse each discovered file;
an uncaught exception aborts the loop and propagates. -/
def prokkaRun (cfg : Config) (clean : String → String) :
    List FileDescr → ProkkaState → ProkkaState × Option PyExn
  | [], st => (st, none)
  | f :: fs, st =>
    match parse_prokka cfg clean f st with
    | (st1, none) => prokkaRun cfg clean fs st1
    | (st1, some e) => (st1, some e)

/-- How `__init__` terminates: the distinct `ModuleNoSamplesFound` signal, or
an exception propagating out of the parse loop. -/
inductive ProkkaInitSignal where
  | noSamplesFound
  | uncaught (e : PyExn)
deriving DecidableEq, Repr

/-- What a completed `__init__` hands to the report: the filtered mapping and
the report parts it registered. -/
structure ProkkaReport where
  data : List (String × Record)
  sections : List String
deriving DecidableEq, Repr

/-- `MultiqcModule.__init__` after the parsing loop: filter ignored samples,
raise `ModuleNoSamplesFound` on an empty mapping, otherwise write the data
file, add general-stats columns and the configured sections. -/
def prokkaModuleInit (cfg : Config) (clean : String → String)
    (ignore : String → Bool) (files : List FileDescr) :
    Except ProkkaInitSignal ProkkaReport :=
  match prokkaRun cfg clean files initProkkaState with
  | (_, some e) => .error (.uncaught e)
  | (st, none) =>
    let kept := ignoreSamples ignore st.prokka
    if kept.length = 0 then .error .noSamplesFound
    else .ok ⟨kept,
      ["write_data_file", "general_stats"]
        ++ (if cfg.prokka_table then ["prokka_table"] else [])
        ++ (if cfg.prokka_barplot then ["prokka_barplot"] else [])⟩

/-! ### Data model for the dragen transcript-coverage section -/

/-- An entry of the coverage table: the numeric value when `float()`
succeeded, otherwise the original string. -/
inductive PValue where
  | num (q : PyRat)
  | str (s : String)
deriving DecidableEq, Repr

/-- Structural equality is decidable for `Except` results. -/
instance {ε α : Type} [DecidableEq ε] [DecidableEq α] :
    DecidableEq (Except ε α) := fun a b =>
  match a, b with
  | .error e1, .error e2 =>
    if h : e1 = e2 then .isTrue (by rw [h]) else
      .isFalse (fun hh => h (Except.error.inj hh))
  | .error _, .ok _ => .isFalse (fun hh => Except.noConfusion hh)
  | .ok _, .error _ => .isFalse (fun hh => Except.noConfusion hh)
  | .ok v1, .ok v2 =>
    if h : v1 = v2 then .isTrue (by rw [h]) else
      .isFalse (fun hh => h (Except.ok.inj hh))

/-- One coverage series: percentile key to coverage value, insertion-ordered. -/
abbrev Series := List (PValue × PValue)

/-- A discovered file for this section: `f["fn"]` and the full contents
`f["f"]` (this search does not use file handles). -/
structure DragenFile where
  fn : String
  content : String
deriving DecidableEq, Repr

/-- The pattern `.quant.transcript_coverage.txt` of the sample-name regex,
one entry per character; `none` is the `.` wildcard. -/
def covPat : List (Option Char) :=
  [none, some 'q', some 'u', some 'a', some 'n', some 't',
   none, some 't', some 'r', some 'a', some 'n', some 's', some 'c',
   some 'r', some 'i', some 'p', some 't', some '_',
   some 'c', some 'o', some 'v', some 'e', some 'r', some 'a', some 'g',
   some 'e', none, some 't', some 'x', some 't']

/-- Does `pat` match a prefix of `cs` (wildcards match any character)? -/
def windowMatch : List (Option Char) → List Char → Bool
  | [], _ => true
  | _ :: _, [] => false
  | p :: ps, c :: cs =>
    (match p with | none => true | some x => decide (x = c)) && windowMatch ps cs

/-- Does the 30-character pattern match at offset `i` of `cs`? -/
def matchFrom (cs : List Char) (i : Nat) : Bool :=
  windowMatch covPat (cs.drop i)

/-- `re.search(r"(.*).quant.transcript_coverage.txt", fn).group(1)`: with a
greedy `(.*)`, group 1 is the prefix before the rightmost offset at which the
pattern matches (filenames contain no newline).  `none` models `re.search`
returning `None`, whereupon `.group(1)` raises `AttributeError`. -/
def regexCovName (fn : String) : Option String :=
  let cs := fn.toList
  match ((List.range (cs.length + 1)).filter (fun i => matchFrom cs i)).max? with
  | none => none
  | some i => some (cs.take i).asString

/-- One token of a data row: `float(tok)` on success, the original string on
`ValueError` (the source's `try ... except ValueError: pass`). -/
def convToken (t : String) : PValue :=
  match pyFloat t with
  | some q => .num q
  | none => .str t

/-- The row loop of `parse_rna_transcript_cov`:
`percentile, coverage = line.split()` raises on a row that does not have
exactly two tokens; otherwise each token is converted independently and the
pair is stored. -/
def covLoop : List String → Series → Except PyExn Series
  | [], data => .ok data
  | line :: rest, data =>
    match pyWSplit line with
    | [a, b] => covLoop rest (pyInsert data (convToken a) (convToken b))
    | _ => .error (.valueError "unpack")

/-- `parse_rna_transcript_cov(f)`. -/
def parse_rna_transcript_cov (f : DragenFile) : Except PyExn (String × Series) :=
  match regexCovName f.fn with
  | none => .error (.attributeError "NoneType has no attribute group")
  | some sName =>
    match covLoop ((pySplitlines f.content).drop 1) [] with
    | .error e => .error e
    | .ok data => .ok (sName, data)

/-- The data lines of a coverage file: everything after the header line. -/
def dataLines (f : DragenFile) : List String :=
  (pySplitlines f.content).drop 1

/-- The key a data line contributes (its converted first token). -/
def lineKey (l : String) : PValue :=
  convToken ((pyWSplit l).getD 0 "")

/-- The value a data line contributes (its converted second token). -/
def lineVal (l : String) : PValue :=
  convToken ((pyWSplit l).getD 1 "")

/-- The accumulator of `add_rna_transcript_coverage`: `data_by_sample` plus
the observable duplicate-name debug notices and `add_data_source` calls. -/
structure DragenAcc where
  data : List (String × Series)
  dupDebugs : Nat
  dataSources : Nat
deriving DecidableEq, Repr

/-- The file loop of `add_rna_transcript_coverage`; a parse exception
propagates and aborts the remaining files. -/
def dragenLoop (clean : String → String) :
    List DragenFile → DragenAcc → Except PyExn DragenAcc
  | [], acc => .ok acc
  | f :: fs, acc =>
    match parse_rna_transcript_cov f with
    | .error e => .error e
    | .ok sd =>
      let s := clean sd.1
      let acc1 := if hasKey acc.data s then
          { acc with dupDebugs := acc.dupDebugs + 1 } else acc
      let acc2 := { acc1 with dataSources := acc1.dataSources + 1 }
      dragenLoop clean fs { acc2 with data := pyInsert acc2.data s sd.2 }

/-- What `add_rna_transcript_coverage` returns and whether it added its
report section: on zero remaining samples it returns early with `set()` and
adds no section; otherwise it adds the section and returns
`data_by_sample.keys()`. -/
structure DragenRunResult where
  sectionAdded : Bool
  sampleNames : List String
  dupDebugs : Nat
  dataSources : Nat
deriving DecidableEq, Repr

/-- `DragenRnaTranscriptCoverage.add_rna_transcript_coverage`. -/
def add_rna_transcript_coverage (ignore : String → Bool)
    (clean : String → String) (files : List DragenFile) :
    Except PyExn DragenRunResult :=
  match dragenLoop clean files ⟨[], 0, 0⟩ with
  | .error e => .error e
  | .ok acc =>
    let kept := ignoreSamples ignore acc.data
    if kept.isEmpty then .ok ⟨false, [], acc.dupDebugs, acc.dataSources⟩
    else .ok ⟨true, kept.map Prod.fst, acc.dupDebugs, acc.dataSources⟩

/-! ### Derived notions used in the statements -/

/-- The record currently stored for sample `s` (empty if absent). -/
def recAt (st : ProkkaState) (s : String) : Record :=
  (pyLookup st.prokka s).getD []

/-- Field `k` of record `r` holds an integer. -/
def intAt (r : Record) (k : String) : Prop :=
  ∃ n : Int, pyLookup r k = some (.int n)

/-- Field `k` of record `r` holds a string. -/
def strAt (r : Record) (k : String) : Prop :=
  ∃ o : String, pyLookup r k = some (.str o)

/-- The first component of the colon split of a line (the field name a
well-formed extra line would store to). -/
def colonHead (l : String) : String :=
  (pySplitChar ':' l).getD 0 ""

/-! ### Concrete inputs used by the claims -/

/-- The spec's worked example file (claim C3 and others). -/
def c3File : FileDescr :=
  ⟨["organism: Helicobacter pylori Sample1", "contigs: 12", "bases: 1600000",
    "CDS: 1500"], "somefile"⟩

/-- Default configuration: global override off, deprecated flag off. -/
def defaultCfg : Config := ⟨.ofBool false, false, false, true⟩

/-- An accepted file with a colon-free trailing line followed by a
well-formed one (claim C1). -/
def c1File : FileDescr :=
  ⟨["organism: A B S1", "contigs: 3", "bases: 9", "junk", "CDS: 5"], "f1"⟩

/-- An accepted file with one non-integer-valued extra line (claim C1). -/
def c1WFile : FileDescr :=
  ⟨["organism: A B W", "contigs: 1", "bases: 2", "x: y", "CDS: 5"], "fw"⟩

/-- Override option set to a list that does not name the prokka anchor,
with the deprecated flag also set (claim C2). -/
def cfgListOther : Config := ⟨.ofList ["other"], true, false, true⟩

/-- Global boolean override off, deprecated flag on (claim C2). -/
def cfgDep : Config := ⟨.ofBool false, true, false, true⟩

/-- An accepted file with a negative contigs count (claim C4). -/
def c4File : FileDescr :=
  ⟨["organism: A B S2", "contigs: -5", "bases: 7"], "f4"⟩

/-- An accepted file whose contigs value is not an integer (claim C10). -/
def c10File : FileDescr :=
  ⟨["organism: A B S3", "contigs: x", "bases: 1"], "f10"⟩

/-- A file that fails the three-line signature check (claim C5). -/
def declineFile : FileDescr := ⟨["not a prokka file"], "fx"⟩

/-- A coverage file whose single data row has three tokens (claim C6). -/
def covBadFile : DragenFile :=
  ⟨"a.quant.transcript_coverage.txt", "Percentile\tCoverage\n1\t0.5\t0.7\n"⟩

/-- A well-formed coverage file with two data rows (claims C6, C7). -/
def covGoodFile : DragenFile :=
  ⟨"b.quant.transcript_coverage.txt", "Percentile\tCoverage\n1\t0.5\n2\t0.12\n"⟩

/-- A coverage file whose two data rows share the percentile `1` (claim C7). -/
def covDupFile : DragenFile :=
  ⟨"d.quant.transcript_coverage.txt", "Percentile\tCoverage\n1\t0.5\n1\t0.7\n"⟩

/-- A coverage file with a non-numeric coverage token (claim C8). -/
def covNAFile : DragenFile :=
  ⟨"c.quant.transcript_coverage.txt", "Percentile\tCoverage\n1\tNA\n"⟩

/-- The record `parse_prokka` produces for `c3File`. -/
def c3Record : Record :=
  [("organism", .str "Helicobacter pylori"), ("contigs", .int 12),
   ("bases", .int 1600000), ("CDS", .int 1500)]

/-- The module state after parsing exactly `c3File`. -/
def c3State : ProkkaState :=
  ⟨[("Sample1", c3Record)], 0, 0, 0, ["Sample1"]⟩

/-! ### Association-list lemmas -/

theorem pyLookup_nil {κ α : Type} [DecidableEq κ] (k : κ) :
    pyLookup ([] : List (κ × α)) k = none := rfl

theorem pyLookup_cons {κ α : Type} [DecidableEq κ]
    (p : κ × α) (ps : List (κ × α)) (k : κ) :
    pyLookup (p :: ps) k = if p.1 = k then some p.2 else pyLookup ps k := rfl

theorem hasKey_cons {κ α : Type} [DecidableEq κ]
    (p : κ × α) (ps : List (κ × α)) (k : κ) :
    hasKey (p :: ps) k = (decide (p.1 = k) || hasKey ps k) := rfl

theorem pyInsert_cons {κ α : Type} [DecidableEq κ]
    (p : κ × α) (ps : List (κ × α)) (k : κ) (v : α) :
    pyInsert (p :: ps) k v = if p.1 = k then (k, v) :: ps else p :: pyInsert ps k v :=
  rfl

theorem pyLookup_pyInsert_self {κ α : Type} [DecidableEq κ]
    (d : List (κ × α)) (k : κ) (v : α) :
    pyLookup (pyInsert d k v) k = some v := by
  induction d with
  | nil => simp [pyInsert, pyLookup_cons]
  | cons p ps ih =>
    by_cases h : p.1 = k
    · rw [pyInsert_cons, if_pos h, pyLookup_cons]
      simp
    · rw [pyInsert_cons, if_neg h, pyLookup_cons, if_neg h]
      exact ih

theorem pyLookup_pyInsert_ne {κ α : Type} [DecidableEq κ]
    (d : List (κ × α)) (k k' : κ) (v : α) (h : k' ≠ k) :
    pyLookup (pyInsert d k v) k' = pyLookup d k' := by
  induction d with
  | nil =>
    simp only [pyInsert, pyLookup_cons, pyLookup_nil]
    rw [if_neg (fun hk => h (hk.symm))]
  | cons p ps ih =>
    by_cases hp : p.1 = k
    · rw [pyInsert_cons, if_pos hp, pyLookup_cons, pyLookup_cons,
        if_neg (fun hk => h (hk.symm)), if_neg (fun hk => h (hp ▸ hk).symm)]
    · rw [pyInsert_cons, if_neg hp, pyLookup_cons, pyLookup_cons]
      by_cases hpk : p.1 = k'
      · rw [if_pos hpk, if_pos hpk]
      · rw [if_neg hpk, if_neg hpk]
        exact ih

theorem hasKey_pyInsert_self {κ α : Type} [DecidableEq κ]
    (d : List (κ × α)) (k : κ) (v : α) :
    hasKey (pyInsert d k v) k = true := by
  induction d with
  | nil => simp [pyInsert, hasKey_cons]
  | cons p ps ih =>
    by_cases h : p.1 = k
    · rw [pyInsert_cons, if_pos h, hasKey_cons]
      simp
    · rw [pyInsert_cons, if_neg h, hasKey_cons, ih]
      simp

theorem hasKey_pyInsert_mono {κ α : Type} [DecidableEq κ]
    (d : List (κ × α)) (k k' : κ) (v : α) (h : hasKey d k' = true) :
    hasKey (pyInsert d k v) k' = true := by
  induction d with
  | nil => simp [hasKey] at h
  | cons p ps ih =>
    rw [hasKey_cons, Bool.or_eq_true, decide_eq_true_eq] at h
    by_cases hp : p.1 = k
    · rw [pyInsert_cons, if_pos hp, hasKey_cons, Bool.or_eq_true, decide_eq_true_eq]
      rcases h with h | h
      · exact Or.inl (hp ▸ h)
      · exact Or.inr h
    · rw [pyInsert_cons, if_neg hp, hasKey_cons, Bool.or_eq_true, decide_eq_true_eq]
      rcases h with h | h
      · exact Or.inl h
      · exact Or.inr (ih h)

theorem length_pyInsert_fresh {κ α : Type} [DecidableEq κ]
    (d : List (κ × α)) (k : κ) (v : α) (h : hasKey d k = false) :
    (pyInsert d k v).length = d.length + 1 := by
  induction d with
  | nil => simp [pyInsert]
  | cons p ps ih =>
    rw [hasKey_cons, Bool.or_eq_false_iff, decide_eq_false_iff_not] at h
    rw [pyInsert_cons, if_neg h.1, List.length_cons, List.length_cons, ih h.2]

theorem hasKey_false_of_lookup_none {κ α : Type} [DecidableEq κ]
    (d : List (κ × α)) (k : κ) (h : pyLookup d k = none) :
    hasKey d k = false := by
  induction d with
  | nil => simp [hasKey]
  | cons p ps ih =>
    rw [pyLookup_cons] at h
    by_cases hp : p.1 = k
    · rw [if_pos hp] at h
      exact absurd h (by simp)
    · rw [if_neg hp] at h
      rw [hasKey_cons, ih h, decide_eq_false hp, Bool.or_self]

/-! ### Projection lemmas for the state helpers -/

theorem bumpDep_prokka (b : Bool) (st : ProkkaState) :
    (bumpDep b st).prokka = st.prokka := by cases b <;> rfl

theorem bumpDep_lineWarnings (b : Bool) (st : ProkkaState) :
    (bumpDep b st).lineWarnings = st.lineWarnings := by cases b <;> rfl

theorem bumpDep_depWarnings (b : Bool) (st : ProkkaState) :
    (bumpDep b st).depWarnings = st.depWarnings + (if b then 1 else 0) := by
  cases b <;> simp [bumpDep]

theorem bumpDup_prokka (b : Bool) (st : ProkkaState) :
    (bumpDup b st).prokka = st.prokka := by cases b <;> rfl

theorem bumpDup_lineWarnings (b : Bool) (st : ProkkaState) :
    (bumpDup b st).lineWarnings = st.lineWarnings := by cases b <;> rfl

theorem bumpDup_depWarnings (b : Bool) (st : ProkkaState) :
    (bumpDup b st).depWarnings = st.depWarnings := by cases b <;> rfl

theorem setField_lineWarnings (st : ProkkaState) (s k : String) (v : PVal) :
    (setField st s k v).lineWarnings = st.lineWarnings := rfl

theorem setField_depWarnings (st : ProkkaState) (s k : String) (v : PVal) :
    (setField st s k v).depWarnings = st.depWarnings := rfl

theorem recAt_setField_self (st : ProkkaState) (s k : String) (v : PVal) :
    recAt (setField st s k v) s = pyInsert (recAt st s) k v := by
  simp [recAt, setField, pyLookup_pyInsert_self]

theorem pyLookup_setField_ne (st : ProkkaState) (s s' k : String) (v : PVal)
    (h : s' ≠ s) :
    pyLookup (setField st s k v).prokka s' = pyLookup st.prokka s' := by
  simp [setField, pyLookup_pyInsert_ne _ _ _ _ h]

theorem hasKey_setField_mono (st : ProkkaState) (s s' k : String) (v : PVal)
    (h : hasKey st.prokka s' = true) :
    hasKey (setField st s k v).prokka s' = true :=
  hasKey_pyInsert_mono _ _ _ _ h

theorem isSome_setField (st : ProkkaState) (s k : String) (v : PVal) :
    (pyLookup (setField st s k v).prokka s).isSome = true := by
  simp [setField, pyLookup_pyInsert_self]

/-! ### Behaviour of the trailing key:value loop -/

theorem extraLines_counters (s : String) (lines : List String) (st : ProkkaState) :
    (prokkaExtraLines s lines st).1.depWarnings = st.depWarnings ∧
    (prokkaExtraLines s lines st).1.dupDebugs = st.dupDebugs ∧
    (prokkaExtraLines s lines st).1.dataSources = st.dataSources := by
  induction lines generalizing st with
  | nil => exact ⟨rfl, rfl, rfl⟩
  | cons line rest ih =>
    cases hsp : pySplitChar ':' line with
    | nil => simp [prokkaExtraLines, hsp]
    | cons d tl =>
      cases tl with
      | nil => simp [prokkaExtraLines, hsp]
      | cons v tl2 =>
        cases tl2 with
        | cons x tl3 => simp [prokkaExtraLines, hsp]
        | nil =>
          cases hv : pyInt v with
          | some n =>
            simp only [prokkaExtraLines, hsp, hv]
            simpa [setField] using ih (setField st s d (.int n))
          | none =>
            simp only [prokkaExtraLines, hsp, hv]
            simpa using ih { st with lineWarnings := st.lineWarnings + 1 }

theorem extraLines_hasKey (s k : String) (lines : List String) (st : ProkkaState)
    (h : hasKey st.prokka k = true) :
    hasKey (prokkaExtraLines s lines st).1.prokka k = true := by
  induction lines generalizing st with
  | nil => exact h
  | cons line rest ih =>
    cases hsp : pySplitChar ':' line with
    | nil => simpa [prokkaExtraLines, hsp] using h
    | cons d tl =>
      cases tl with
      | nil => simpa [prokkaExtraLines, hsp] using h
      | cons v tl2 =>
        cases tl2 with
        | cons x tl3 => simpa [prokkaExtraLines, hsp] using h
        | nil =>
          cases hv : pyInt v with
          | some n =>
            simp only [prokkaExtraLines, hsp, hv]
            exact ih _ (hasKey_setField_mono st s k d (.int n) h)
          | none =>
            simp only [prokkaExtraLines, hsp, hv]
            exact ih _ h

theorem extraLines_all2 (s : String) (lines : List String) (st : ProkkaState)
    (h2 : ∀ l ∈ lines, (pySplitChar ':' l).length = 2) :
    (prokkaExtraLines s lines st).2 = none ∧
    (prokkaExtraLines s lines st).1.lineWarnings =
      st.lineWarnings + (lines.filter (fun l => (pyInt (colonIndex1 l)).isNone)).length := by
  induction lines generalizing st with
  | nil => exact ⟨rfl, rfl⟩
  | cons line rest ih =>
    have hl := h2 line (by simp)
    have hrest : ∀ l ∈ rest, (pySplitChar ':' l).length = 2 :=
      fun l hm => h2 l (by simp [hm])
    cases hsp : pySplitChar ':' line with
    | nil => rw [hsp] at hl; simp at hl
    | cons d tl =>
      cases tl with
      | nil => rw [hsp] at hl; simp at hl
      | cons v tl2 =>
        cases tl2 with
        | cons x tl3 => rw [hsp] at hl; simp at hl
        | nil =>
          cases hv : pyInt v with
          | some n =>
            simp only [prokkaExtraLines, hsp, hv]
            refine ⟨(ih _ hrest).1, ?_⟩
            rw [(ih _ hrest).2]
            simp [setField, List.filter_cons, colonIndex1, hsp, hv]
          | none =>
            simp only [prokkaExtraLines, hsp, hv]
            refine ⟨(ih _ hrest).1, ?_⟩
            rw [(ih _ hrest).2]
            simp only [List.filter_cons, colonIndex1, hsp]
            simp [hv]
            omega

theorem extraLines_lookup_ne (s k : String) (lines : List String) (st : ProkkaState)
    (h : k ≠ s) :
    pyLookup (prokkaExtraLines s lines st).1.prokka k = pyLookup st.prokka k := by
  induction lines generalizing st with
  | nil => rfl
  | cons line rest ih =>
    cases hsp : pySplitChar ':' line with
    | nil => simp [prokkaExtraLines, hsp]
    | cons d tl =>
      cases tl with
      | nil => simp [prokkaExtraLines, hsp]
      | cons v tl2 =>
        cases tl2 with
        | cons x tl3 => simp [prokkaExtraLines, hsp]
        | nil =>
          cases hv : pyInt v with
          | some n =>
            simp only [prokkaExtraLines, hsp, hv]
            rw [ih _, pyLookup_setField_ne st s k d (.int n) h]
          | none =>
            simp only [prokkaExtraLines, hsp, hv]
            exact ih _

theorem extraLines_intAt (s fk : String) (lines : List String) (st : ProkkaState)
    (h : intAt (recAt st s) fk) :
    intAt (recAt (prokkaExtraLines s lines st).1 s) fk := by
  induction lines generalizing st with
  | nil => exact h
  | cons line rest ih =>
    cases hsp : pySplitChar ':' line with
    | nil => simpa [prokkaExtraLines, hsp] using h
    | cons d tl =>
      cases tl with
      | nil => simpa [prokkaExtraLines, hsp] using h
      | cons v tl2 =>
        cases tl2 with
        | cons x tl3 => simpa [prokkaExtraLines, hsp] using h
        | nil =>
          cases hv : pyInt v with
          | some n =>
            simp only [prokkaExtraLines, hsp, hv]
            refine ih _ ?_
            rw [recAt_setField_self]
            by_cases hfk : fk = d
            · subst hfk
              exact ⟨n, pyLookup_pyInsert_self _ _ _⟩
            · obtain ⟨m, hm⟩ := h
              exact ⟨m, by rw [pyLookup_pyInsert_ne _ _ _ _ hfk]; exact hm⟩
          | none =>
            simp only [prokkaExtraLines, hsp, hv]
            exact ih _ h

theorem extraLines_field_frozen (s fk : String) (lines : List String) (st : ProkkaState)
    (h : ∀ l ∈ lines, colonHead l ≠ fk) :
    pyLookup (recAt (prokkaExtraLines s lines st).1 s) fk =
      pyLookup (recAt st s) fk := by
  induction lines generalizing st with
  | nil => rfl
  | cons line rest ih =>
    have hrest : ∀ l ∈ rest, colonHead l ≠ fk := fun l hm => h l (by simp [hm])
    cases hsp : pySplitChar ':' line with
    | nil => simp [prokkaExtraLines, hsp]
    | cons d tl =>
      cases tl with
      | nil => simp [prokkaExtraLines, hsp]
      | cons v tl2 =>
        cases tl2 with
        | cons x tl3 => simp [prokkaExtraLines, hsp]
        | nil =>
          have hd : d ≠ fk := by
            have := h line (by simp)
            simpa [colonHead, hsp] using this
          cases hv : pyInt v with
          | some n =>
            simp only [prokkaExtraLines, hsp, hv]
            rw [ih _ hrest, recAt_setField_self,
              pyLookup_pyInsert_ne _ _ _ _ (fun hk => hd hk.symm)]
          | none =>
            simp only [prokkaExtraLines, hsp, hv]
            exact ih _ hrest

theorem extraLines_isSome (s : String) (lines : List String) (st : ProkkaState)
    (h : (pyLookup st.prokka s).isSome = true) :
    (pyLookup (prokkaExtraLines s lines st).1.prokka s).isSome = true := by
  induction lines generalizing st with
  | nil => exact h
  | cons line rest ih =>
    cases hsp : pySplitChar ':' line with
    | nil => simpa [prokkaExtraLines, hsp] using h
    | cons d tl =>
      cases tl with
      | nil => simpa [prokkaExtraLines, hsp] using h
      | cons v tl2 =>
        cases tl2 with
        | cons x tl3 => simpa [prokkaExtraLines, hsp] using h
        | nil =>
          cases hv : pyInt v with
          | some n =>
            simp only [prokkaExtraLines, hsp, hv]
            exact ih _ (isSome_setField st s d (.int n))
          | none =>
            simp only [prokkaExtraLines, hsp, hv]
            exact ih _ h

/-! ### Behaviour of the record-creation and finish steps -/

theorem newRecord_lookup_self (st : ProkkaState) (s organism : String) :
    pyLookup (prokkaNewRecord st s organism).prokka s =
      some [("organism", .str organism)] := by
  simp [prokkaNewRecord, setField, recAt, pyLookup_pyInsert_self, pyInsert]

theorem newRecord_lookup_ne (st : ProkkaState) (s k organism : String) (h : k ≠ s) :
    pyLookup (prokkaNewRecord st s organism).prokka k = pyLookup st.prokka k := by
  simp [prokkaNewRecord, setField,
    pyLookup_pyInsert_ne _ _ _ _ h]

theorem newRecord_counters (st : ProkkaState) (s organism : String) :
    (prokkaNewRecord st s organism).lineWarnings = st.lineWarnings ∧
    (prokkaNewRecord st s organism).depWarnings = st.depWarnings ∧
    (prokkaNewRecord st s organism).dupDebugs = st.dupDebugs ∧
    (prokkaNewRecord st s organism).dataSources = st.dataSources :=
  ⟨rfl, rfl, rfl, rfl⟩

theorem prokkaFinish_hasKey (s : String) (rest : List String) (st5 : ProkkaState)
    (h : hasKey st5.prokka s = true) :
    hasKey (prokkaFinish s rest st5).1.prokka s = true := by
  unfold prokkaFinish
  have hk := extraLines_hasKey s s rest st5 h
  rcases hx : prokkaExtraLines s rest st5 with ⟨st6, e6⟩
  rw [hx] at hk
  cases e6 <;> exact hk

theorem prokkaFinish_depWarnings (s : String) (rest : List String) (st5 : ProkkaState) :
    (prokkaFinish s rest st5).1.depWarnings = st5.depWarnings := by
  unfold prokkaFinish
  have hc := (extraLines_counters s rest st5).1
  rcases hx : prokkaExtraLines s rest st5 with ⟨st6, e6⟩
  rw [hx] at hc
  cases e6 <;> exact hc

theorem prokkaFinish_lineWarnings (s : String) (rest : List String) (st5 : ProkkaState) :
    (prokkaFinish s rest st5).1.lineWarnings =
      (prokkaExtraLines s rest st5).1.lineWarnings := by
  unfold prokkaFinish
  rcases hx : prokkaExtraLines s rest st5 with ⟨st6, e6⟩
  cases e6 <;> rfl

theorem prokkaFinish_exn (s : String) (rest : List String) (st5 : ProkkaState) :
    (prokkaFinish s rest st5).2 = (prokkaExtraLines s rest st5).2 := by
  unfold prokkaFinish
  rcases hx : prokkaExtraLines s rest st5 with ⟨st6, e6⟩
  cases e6 <;> rfl

theorem prokkaFinish_prokka (s : String) (rest : List String) (st5 : ProkkaState) :
    (prokkaFinish s rest st5).1.prokka = (prokkaExtraLines s rest st5).1.prokka := by
  unfold prokkaFinish
  rcases hx : prokkaExtraLines s rest st5 with ⟨st6, e6⟩
  cases e6 <;> rfl

/-! ### Behaviour of a whole `parse_prokka` call -/

theorem parse_declined (cfg : Config) (clean : String → String) (f : FileDescr)
    (st : ProkkaState) (h : prokkaAccepts f = false) :
    parse_prokka cfg clean f st = (st, none) := by
  simp [parse_prokka, h]

theorem parse_hasKey (cfg : Config) (clean : String → String) (f : FileDescr)
    (st : ProkkaState) (h : prokkaAccepts f = true) :
    hasKey (parse_prokka cfg clean f st).1.prokka (prokkaSampleName cfg clean f) = true := by
  simp only [parse_prokka]
  rw [if_pos h]
  cases hc : pyInt (colonIndex1 (prokkaHeader f).l2) with
  | none =>
    simp only [prokkaNewRecord, setField]
    exact hasKey_pyInsert_self _ _ _
  | some c =>
    cases hb : pyInt (colonIndex1 (prokkaHeader f).l3) with
    | none =>
      apply hasKey_setField_mono
      simp only [prokkaNewRecord, setField]
      exact hasKey_pyInsert_self _ _ _
    | some b =>
      apply prokkaFinish_hasKey
      apply hasKey_setField_mono
      apply hasKey_setField_mono
      simp only [prokkaNewRecord, setField]
      exact hasKey_pyInsert_self _ _ _

theorem parse_depWarnings (cfg : Config) (clean : String → String) (f : FileDescr)
    (st : ProkkaState) (h : prokkaAccepts f = true) :
    (parse_prokka cfg clean f st).1.depWarnings =
      st.depWarnings + (if (prokkaUseFilename cfg).2 then 1 else 0) := by
  simp only [parse_prokka]
  rw [if_pos h]
  cases hc : pyInt (colonIndex1 (prokkaHeader f).l2) with
  | none =>
    simp [prokkaNewRecord, setField, bumpDup_depWarnings, bumpDep_depWarnings]
  | some c =>
    cases hb : pyInt (colonIndex1 (prokkaHeader f).l3) with
    | none =>
      simp [prokkaNewRecord, setField, bumpDup_depWarnings, bumpDep_depWarnings]
    | some b =>
      rw [prokkaFinish_depWarnings]
      simp [prokkaNewRecord, setField, bumpDup_depWarnings, bumpDep_depWarnings]

theorem parse_lookup_ne (cfg : Config) (clean : String → String) (f : FileDescr)
    (st : ProkkaState) (k : String) (hk : k ≠ prokkaSampleName cfg clean f) :
    pyLookup (parse_prokka cfg clean f st).1.prokka k = pyLookup st.prokka k := by
  by_cases h : prokkaAccepts f = true
  · simp only [parse_prokka]
    rw [if_pos h]
    cases hc : pyInt (colonIndex1 (prokkaHeader f).l2) with
    | none =>
      rw [newRecord_lookup_ne _ _ _ _ hk, bumpDup_prokka, bumpDep_prokka]
    | some c =>
      cases hb : pyInt (colonIndex1 (prokkaHeader f).l3) with
      | none =>
        rw [pyLookup_setField_ne _ _ _ _ _ hk, newRecord_lookup_ne _ _ _ _ hk,
          bumpDup_prokka, bumpDep_prokka]
      | some b =>
        rw [prokkaFinish_prokka, extraLines_lookup_ne _ _ _ _ hk,
          pyLookup_setField_ne _ _ _ _ _ hk, pyLookup_setField_ne _ _ _ _ _ hk,
          newRecord_lookup_ne _ _ _ _ hk, bumpDup_prokka, bumpDep_prokka]
  · rw [parse_declined cfg clean f st (by simpa using h)]

theorem finish_inv (sN org : String) (rest : List String) (st2 : ProkkaState)
    (c b : Int) (st' : ProkkaState)
    (hno : ∀ l ∈ rest, colonHead l ≠ "organism")
    (hp : prokkaFinish sN rest (setField (setField (prokkaNewRecord st2 sN org)
      sN "contigs" (.int c)) sN "bases" (.int b)) = (st', none)) :
    pyLookup st'.prokka sN = some (recAt st' sN) ∧
    strAt (recAt st' sN) "organism" ∧ intAt (recAt st' sN) "contigs" ∧
    intAt (recAt st' sN) "bases" := by
  have hst : (prokkaFinish sN rest (setField (setField (prokkaNewRecord st2 sN org)
      sN "contigs" (.int c)) sN "bases" (.int b))).1 = st' := congrArg Prod.fst hp
  set st5 := setField (setField (prokkaNewRecord st2 sN org) sN "contigs" (.int c))
    sN "bases" (.int b) with hst5
  have hrec3 : recAt (prokkaNewRecord st2 sN org) sN = [("organism", .str org)] := by
    simp [recAt, newRecord_lookup_self]
  have hrec5 : recAt st5 sN =
      [("organism", .str org), ("contigs", .int c), ("bases", .int b)] := by
    rw [hst5, recAt_setField_self, recAt_setField_self, hrec3]
    simp [pyInsert]
  have hsome5 : (pyLookup st5.prokka sN).isSome = true := by
    rw [hst5]; exact isSome_setField _ _ _ _
  have horg2 : pyLookup (recAt (prokkaExtraLines sN rest st5).1 sN) "organism" =
      pyLookup (recAt st5 sN) "organism" :=
    extraLines_field_frozen sN "organism" rest st5 hno
  have hcont : intAt (recAt (prokkaExtraLines sN rest st5).1 sN) "contigs" := by
    apply extraLines_intAt
    rw [hrec5]
    exact ⟨c, by simp [pyLookup]⟩
  have hbase : intAt (recAt (prokkaExtraLines sN rest st5).1 sN) "bases" := by
    apply extraLines_intAt
    rw [hrec5]
    exact ⟨b, by simp [pyLookup]⟩
  have hsome6 : (pyLookup (prokkaExtraLines sN rest st5).1.prokka sN).isSome = true :=
    extraLines_isSome sN rest st5 hsome5
  have hpk : st'.prokka = (prokkaExtraLines sN rest st5).1.prokka := by
    rw [← hst, prokkaFinish_prokka]
  have hra : recAt st' sN = recAt (prokkaExtraLines sN rest st5).1 sN := by
    simp only [recAt, hpk]
  refine ⟨?_, ?_, ?_, ?_⟩
  · rw [hpk, hra]
    obtain ⟨r, hr⟩ := Option.isSome_iff_exists.mp hsome6
    rw [hr]
    simp [recAt, hr]
  · rw [hra]
    exact ⟨org, by rw [horg2, hrec5]; simp [pyLookup]⟩
  · rw [hra]; exact hcont
  · rw [hra]; exact hbase

theorem parse_ok_self (cfg : Config) (clean : String → String) (f : FileDescr)
    (st st' : ProkkaState)
    (h : prokkaAccepts f = true)
    (hp : parse_prokka cfg clean f st = (st', none))
    (hno : ∀ l ∈ (prokkaHeader f).rest, colonHead l ≠ "organism") :
    pyLookup st'.prokka (prokkaSampleName cfg clean f) =
      some (recAt st' (prokkaSampleName cfg clean f)) ∧
    strAt (recAt st' (prokkaSampleName cfg clean f)) "organism" ∧
    intAt (recAt st' (prokkaSampleName cfg clean f)) "contigs" ∧
    intAt (recAt st' (prokkaSampleName cfg clean f)) "bases" := by
  simp only [parse_prokka] at hp
  rw [if_pos h] at hp
  revert hp
  cases hc : pyInt (colonIndex1 (prokkaHeader f).l2) with
  | none =>
    intro hp
    simp at hp
  | some c =>
    cases hb : pyInt (colonIndex1 (prokkaHeader f).l3) with
    | none =>
      intro hp
      simp at hp
    | some b =>
      intro hp
      exact finish_inv _ _ _ _ _ _ _ hno hp

theorem parse_all2 (cfg : Config) (clean : String → String) (f : FileDescr)
    (st : ProkkaState)
    (h : prokkaAccepts f = true)
    (hc : (pyInt (colonIndex1 (prokkaHeader f).l2)).isSome = true)
    (hb : (pyInt (colonIndex1 (prokkaHeader f).l3)).isSome = true)
    (h2 : ∀ l ∈ (prokkaHeader f).rest, (pySplitChar ':' l).length = 2) :
    (parse_prokka cfg clean f st).2 = none ∧
    (parse_prokka cfg clean f st).1.lineWarnings =
      st.lineWarnings + (((prokkaHeader f).rest).filter
        (fun l => (pyInt (colonIndex1 l)).isNone)).length := by
  simp only [parse_prokka]
  rw [if_pos h]
  obtain ⟨c, hcv⟩ := Option.isSome_iff_exists.mp hc
  obtain ⟨b, hbv⟩ := Option.isSome_iff_exists.mp hb
  rw [hcv, hbv]
  constructor
  · rw [prokkaFinish_exn]
    exact (extraLines_all2 _ _ _ h2).1
  · rw [prokkaFinish_lineWarnings, (extraLines_all2 _ _ _ h2).2]
    simp [setField, prokkaNewRecord, bumpDup_lineWarnings, bumpDep_lineWarnings]

theorem parse_contigs_fail (cfg : Config) (clean : String → String) (f : FileDescr)
    (st : ProkkaState)
    (h : prokkaAccepts f = true)
    (hc : pyInt (colonIndex1 (prokkaHeader f).l2) = none) :
    (parse_prokka cfg clean f st).2 =
      some (.valueError "invalid literal for int - contigs") ∧
    pyLookup (parse_prokka cfg clean f st).1.prokka (prokkaSampleName cfg clean f) =
      some [("organism", .str (prokkaOrganism (prokkaHeader f).l1))] := by
  simp only [parse_prokka]
  rw [if_pos h, hc]
  exact ⟨rfl, newRecord_lookup_self _ _ _⟩

/-! ### The aggregation loop of `__init__` -/

theorem prokkaRun_inv (cfg : Config) (clean : String → String)
    (files : List FileDescr) (st st' : ProkkaState)
    (hrun : prokkaRun cfg clean files st = (st', none))
    (hno : ∀ f ∈ files, ∀ l ∈ (prokkaHeader f).rest, colonHead l ≠ "organism")
    (inv : ∀ s r, pyLookup st.prokka s = some r →
      strAt r "organism" ∧ intAt r "contigs" ∧ intAt r "bases") :
    ∀ s r, pyLookup st'.prokka s = some r →
      strAt r "organism" ∧ intAt r "contigs" ∧ intAt r "bases" := by
  induction files generalizing st with
  | nil =>
    simp only [prokkaRun, Prod.mk.injEq] at hrun
    rw [← hrun.1]
    exact inv
  | cons f fs ih =>
    simp only [prokkaRun] at hrun
    revert hrun
    rcases hpf : parse_prokka cfg clean f st with ⟨st1, e1⟩
    cases e1 with
    | some e =>
      intro hrun
      simp at hrun
    | none =>
      intro hrun
      refine ih _ hrun (fun g hg => hno g (by simp [hg])) ?_
      intro s r hr
      by_cases hs : s = prokkaSampleName cfg clean f
      · subst hs
        by_cases ha : prokkaAccepts f = true
        · have hself := parse_ok_self cfg clean f st st1 ha hpf
            (hno f (by simp))
          have hrr : r = recAt st1 (prokkaSampleName cfg clean f) := by
            rw [hr] at hself
            exact (Option.some.inj hself.1)
          rw [hrr]
          exact ⟨hself.2.1, hself.2.2.1, hself.2.2.2⟩
        · have hd := parse_declined cfg clean f st (by simpa using ha)
          rw [hd] at hpf
          have hst1 : st1 = st := ((Prod.mk.injEq _ _ _ _).mp hpf).1.symm
          rw [hst1] at hr
          exact inv _ _ hr
      · have hne := parse_lookup_ne cfg clean f st s hs
        rw [hpf] at hne
        simp only [] at hne
        rw [hne] at hr
        exact inv _ _ hr

/-! ### The dragen row loop -/

theorem list_len2 {β : Type} (l : List β) (h : l.length = 2) :
    ∃ x y, l = [x, y] := by
  cases l with
  | nil => simp at h
  | cons x t =>
    cases t with
    | nil => simp at h
    | cons y t2 =>
      cases t2 with
      | nil => exact ⟨x, y, rfl⟩
      | cons z t3 => simp at h

theorem pyLookup_none_of_hasKey_false {κ α : Type} [DecidableEq κ]
    (d : List (κ × α)) (k : κ) (h : hasKey d k = false) :
    pyLookup d k = none := by
  induction d with
  | nil => rfl
  | cons p ps ih =>
    rw [hasKey_cons, Bool.or_eq_false_iff, decide_eq_false_iff_not] at h
    rw [pyLookup_cons, if_neg h.1]
    exact ih h.2

theorem covLoop_ok (lines : List String) (data : Series)
    (h2 : ∀ l ∈ lines, (pyWSplit l).length = 2) :
    ∃ d2, covLoop lines data = .ok d2 := by
  induction lines generalizing data with
  | nil => exact ⟨data, rfl⟩
  | cons line rest ih =>
    obtain ⟨a, b2, hab⟩ := list_len2 _ (h2 line (by simp))
    simp only [covLoop, hab]
    exact ih _ (fun l hl => h2 l (by simp [hl]))

theorem covLoop_all2_of_ok (lines : List String) (data d2 : Series)
    (h : covLoop lines data = .ok d2) :
    ∀ l ∈ lines, (pyWSplit l).length = 2 := by
  induction lines generalizing data with
  | nil => simp
  | cons line rest ih =>
    intro l hl
    revert h
    cases hsp : pyWSplit line with
    | nil => intro h; simp [covLoop, hsp] at h
    | cons a tl =>
      cases tl with
      | nil => intro h; simp [covLoop, hsp] at h
      | cons b2 tl2 =>
        cases tl2 with
        | nil =>
          intro h
          simp only [covLoop, hsp] at h
          rcases List.mem_cons.mp hl with hl | hl
          · subst hl; rw [hsp]; rfl
          · exact ih _ h l hl
        | cons z tl3 => intro h; simp [covLoop, hsp] at h

theorem covLoop_length (lines : List String) (data d2 : Series)
    (h2 : ∀ l ∈ lines, (pyWSplit l).length = 2)
    (hnd : (lines.map lineKey).Nodup)
    (hfresh : ∀ l ∈ lines, hasKey data (lineKey l) = false)
    (h : covLoop lines data = .ok d2) :
    d2.length = data.length + lines.length := by
  induction lines generalizing data with
  | nil =>
    simp only [covLoop, Except.ok.injEq] at h
    rw [← h]
    simp
  | cons line rest ih =>
    obtain ⟨a, b2, hab⟩ := list_len2 _ (h2 line (by simp))
    simp only [covLoop, hab] at h
    have hkey : lineKey line = convToken a := by simp [lineKey, hab]
    have hnd2 : (rest.map lineKey).Nodup := (List.nodup_cons.mp (by simpa using hnd)).2
    have hhead : lineKey line ∉ rest.map lineKey :=
      (List.nodup_cons.mp (by simpa using hnd)).1
    have hfresh2 : ∀ l ∈ rest,
        hasKey (pyInsert data (convToken a) (convToken b2)) (lineKey l) = false := by
      intro l hl
      have hne : lineKey l ≠ convToken a := by
        rw [← hkey]
        intro he
        exact hhead (he ▸ List.mem_map_of_mem lineKey hl)
      apply hasKey_false_of_lookup_none
      rw [pyLookup_pyInsert_ne _ _ _ _ hne]
      exact pyLookup_none_of_hasKey_false _ _ (hfresh l (by simp [hl]))
    rw [ih _ (fun l hl => h2 l (by simp [hl])) hnd2 hfresh2 h,
      length_pyInsert_fresh _ _ _ (by rw [← hkey]; exact hfresh line (by simp))]
    simp only [List.length_cons]
    omega

theorem covLoop_lookup_frozen (lines : List String) (data d2 : Series) (K : PValue)
    (h : covLoop lines data = .ok d2)
    (hk : ∀ l ∈ lines, lineKey l ≠ K) :
    pyLookup d2 K = pyLookup data K := by
  induction lines generalizing data with
  | nil =>
    simp only [covLoop, Except.ok.injEq] at h
    rw [← h]
  | cons line rest ih =>
    revert h
    cases hsp : pyWSplit line with
    | nil => intro h; simp [covLoop, hsp] at h
    | cons a tl =>
      cases tl with
      | nil => intro h; simp [covLoop, hsp] at h
      | cons b2 tl2 =>
        cases tl2 with
        | nil =>
          intro h
          simp only [covLoop, hsp] at h
          have hne : K ≠ convToken a := by
            have := hk line (by simp)
            simp only [lineKey, hsp] at this
            exact fun he => this (by simp [he.symm])
          rw [ih _ h (fun l hl => hk l (by simp [hl])),
            pyLookup_pyInsert_ne _ _ _ _ hne]
        | cons z tl3 => intro h; simp [covLoop, hsp] at h

theorem covLoop_lookup_mem (lines : List String) (data d2 : Series)
    (h2 : ∀ l ∈ lines, (pyWSplit l).length = 2)
    (hnd : (lines.map lineKey).Nodup)
    (h : covLoop lines data = .ok d2) :
    ∀ l ∈ lines, pyLookup d2 (lineKey l) = some (lineVal l) := by
  induction lines generalizing data with
  | nil => simp
  | cons line rest ih =>
    obtain ⟨a, b2, hab⟩ := list_len2 _ (h2 line (by simp))
    simp only [covLoop, hab] at h
    have hnd2 : (rest.map lineKey).Nodup := (List.nodup_cons.mp (by simpa using hnd)).2
    have hhead : lineKey line ∉ rest.map lineKey :=
      (List.nodup_cons.mp (by simpa using hnd)).1
    intro l hl
    rcases List.mem_cons.mp hl with hl | hl
    · subst hl
      have hkey : lineKey l = convToken a := by simp [lineKey, hab]
      have hval : lineVal l = convToken b2 := by simp [lineVal, hab]
      rw [hkey, hval, covLoop_lookup_frozen rest _ _ _ h ?_]
      · exact pyLookup_pyInsert_self _ _ _
      · intro g hg hgk
        have hm := List.mem_map_of_mem lineKey hg
        rw [hgk, ← hkey] at hm
        exact hhead hm
    · exact ih _ (fun g hg => h2 g (by simp [hg])) hnd2 h l hl

/-! ### The dragen per-file parser and file loop -/

theorem parse_cov_ok (f : DragenFile) (s : String)
    (hre : regexCovName f.fn = some s)
    (h2 : ∀ l ∈ dataLines f, (pyWSplit l).length = 2) :
    ∃ series, parse_rna_transcript_cov f = .ok (s, series) ∧
      covLoop (dataLines f) [] = .ok series := by
  obtain ⟨d2, hd⟩ := covLoop_ok _ [] h2
  refine ⟨d2, ?_, hd⟩
  simp only [dataLines] at hd
  simp only [parse_rna_transcript_cov, hre, hd]

theorem parse_cov_error (f : DragenFile)
    (hbad : ∃ l ∈ dataLines f, (pyWSplit l).length ≠ 2) :
    ∃ e, parse_rna_transcript_cov f = .error e := by
  cases hre : regexCovName f.fn with
  | none =>
    exact ⟨.attributeError "NoneType has no attribute group",
      by simp [parse_rna_transcript_cov, hre]⟩
  | some s =>
    cases hcl : covLoop (dataLines f) [] with
    | error e =>
      refine ⟨e, ?_⟩
      simp only [dataLines, List.drop_one] at hcl
      simp [parse_rna_transcript_cov, hre, hcl]
    | ok d2 =>
      obtain ⟨l, hl, hne⟩ := hbad
      exact absurd (covLoop_all2_of_ok _ _ _ hcl l hl) hne

theorem dragenLoop_append (clean : String → String) (xs ys : List DragenFile)
    (acc : DragenAcc) :
    dragenLoop clean (xs ++ ys) acc =
      match dragenLoop clean xs acc with
      | .ok acc2 => dragenLoop clean ys acc2
      | .error e => .error e := by
  induction xs generalizing acc with
  | nil => simp [dragenLoop]
  | cons f fs ih =>
    simp only [List.cons_append, dragenLoop]
    cases hpf : parse_rna_transcript_cov f with
    | error e => rfl
    | ok sd => exact ih _

theorem add_cov_error (ignore : String → Bool) (clean : String → String)
    (fs1 : List DragenFile) (f : DragenFile) (fs2 : List DragenFile)
    (acc : DragenAcc) (e : PyExn)
    (h1 : dragenLoop clean fs1 ⟨[], 0, 0⟩ = .ok acc)
    (h2 : parse_rna_transcript_cov f = .error e) :
    add_rna_transcript_coverage ignore clean (fs1 ++ f :: fs2) = .error e := by
  unfold add_rna_transcript_coverage
  rw [dragenLoop_append, h1]
  simp [dragenLoop, h2]

/-! ### Zero-sample behaviour -/

theorem init_noSamples (cfg : Config) (clean : String → String)
    (ignore : String → Bool) (files : List FileDescr) (st : ProkkaState)
    (hrun : prokkaRun cfg clean files initProkkaState = (st, none))
    (hempty : ignoreSamples ignore st.prokka = []) :
    prokkaModuleInit cfg clean ignore files = .error .noSamplesFound := by
  unfold prokkaModuleInit
  rw [hrun]
  simp [hempty]

theorem addCov_noSamples (ignore : String → Bool) (clean : String → String)
    (files : List DragenFile) (acc : DragenAcc)
    (hloop : dragenLoop clean files ⟨[], 0, 0⟩ = .ok acc)
    (hempty : ignoreSamples ignore acc.data = []) :
    add_rna_transcript_coverage ignore clean files =
      .ok ⟨false, [], acc.dupDebugs, acc.dataSources⟩ := by
  unfold add_rna_transcript_coverage
  rw [hloop]
  simp [hempty]

/-! ### The claims -/

/-- C1, counterexample to the claim as stated: in the accepted file `c1File`
the trailing line `"junk"` has no colon separator; the claim says it is
skipped with a warning and never aborts the file, but `parse_prokka` raises
an uncaught `ValueError` from tuple unpacking there, and the following
well-formed line `"CDS: 5"` is never processed (the record has no `CDS`
key). -/
theorem c1_counterexample :
    (parse_prokka defaultCfg id c1File initProkkaState).2 =
      some (.valueError "unpack") ∧
    pyLookup (recAt (parse_prokka defaultCfg id c1File initProkkaState).1 "S1")
      "CDS" = none := by decide

/-- C1 (amended): after the bases line, a remaining line whose colon split
has exactly two parts and whose value part is not an integer is skipped with
a warning for that line only; under the hypothesis that every remaining line
splits into exactly two parts (and the contigs/bases values parse), the file
is processed to the end with no exception and exactly one warning per
non-integer value.  (A line with no colon, or more than one, instead raises
an uncaught `ValueError` — see the counterexample.) -/
theorem c1_amended_theorem (cfg : Config) (clean : String → String) (f : FileDescr)
    (st : ProkkaState)
    (h : prokkaAccepts f = true)
    (hc : (pyInt (colonIndex1 (prokkaHeader f).l2)).isSome = true)
    (hb : (pyInt (colonIndex1 (prokkaHeader f).l3)).isSome = true)
    (h2 : ∀ l ∈ (prokkaHeader f).rest, (pySplitChar ':' l).length = 2) :
    (parse_prokka cfg clean f st).2 = none ∧
    (parse_prokka cfg clean f st).1.lineWarnings =
      st.lineWarnings + (((prokkaHeader f).rest).filter
        (fun l => (pyInt (colonIndex1 l)).isNone)).length :=
  parse_all2 cfg clean f st h hc hb h2

/-- Witness for C1: `c1WFile` has one non-integer extra line (`"x: y"`) and
one integer one (`"CDS: 5"`); the parse succeeds with exactly one warning. -/
theorem c1_witness :
    (parse_prokka defaultCfg id c1WFile initProkkaState).2 = none ∧
    (parse_prokka defaultCfg id c1WFile initProkkaState).1.lineWarnings =
      initProkkaState.lineWarnings + (((prokkaHeader c1WFile).rest).filter
        (fun l => (pyInt (colonIndex1 l)).isNone)).length :=
  c1_amended_theorem defaultCfg id c1WFile initProkkaState (by decide) (by decide)
    (by decide) (by decide)

/-- C2, counterexample to the claim as stated: with
`use_filename_as_sample_name = ["other"]` (a list not naming the prokka
anchor) and the deprecated `prokka_fn_snames = True`, the claim's precedence
chain reaches the deprecated flag and uses the file name `"somefile"`; the
code's `elif` chain never consults the deprecated flag when the option is a
list, so the record is stored under the content-derived `"Sample1"`, not
under `"somefile"`, and no deprecation warning is emitted. -/
theorem c2_counterexample :
    hasKey (parse_prokka cfgListOther id c3File initProkkaState).1.prokka
      "Sample1" = true ∧
    hasKey (parse_prokka cfgListOther id c3File initProkkaState).1.prokka
      "somefile" = false ∧
    (parse_prokka cfgListOther id c3File initProkkaState).1.depWarnings = 0 := by
  decide

/-- C2 (amended): for every accepted file the record is stored under the name
resolved as follows — if the global option is a list, the file's own name is
used iff the list contains the module anchor (the deprecated flag is never
consulted in this case); otherwise if the option is the boolean `True` the
file's own name is used; otherwise if the deprecated `prokka_fn_snames` flag
is set the file's own name is used and one deprecation warning is emitted
during that file's parse; otherwise the content-derived name is used. -/
theorem c2_amended_theorem (cfg : Config) (clean : String → String) (f : FileDescr)
    (st : ProkkaState) (h : prokkaAccepts f = true) :
    hasKey (parse_prokka cfg clean f st).1.prokka
      (match cfg.use_filename_as_sample_name with
       | UfasnSetting.ofList anchors =>
         if anchors.contains "prokka" then f.s_name
         else prokkaContentName clean (prokkaHeader f).l1
       | UfasnSetting.ofBool true => f.s_name
       | UfasnSetting.ofBool false =>
         if cfg.prokka_fn_snames then f.s_name
         else prokkaContentName clean (prokkaHeader f).l1) = true ∧
    (parse_prokka cfg clean f st).1.depWarnings =
      st.depWarnings +
        (match cfg.use_filename_as_sample_name with
         | UfasnSetting.ofList _ => 0
         | UfasnSetting.ofBool true => 0
         | UfasnSetting.ofBool false =>
           if cfg.prokka_fn_snames then 1 else 0) := by
  have hname : (match cfg.use_filename_as_sample_name with
      | UfasnSetting.ofList anchors =>
        if anchors.contains "prokka" then f.s_name
        else prokkaContentName clean (prokkaHeader f).l1
      | UfasnSetting.ofBool true => f.s_name
      | UfasnSetting.ofBool false =>
        if cfg.prokka_fn_snames then f.s_name
        else prokkaContentName clean (prokkaHeader f).l1) =
      prokkaSampleName cfg clean f := by
    rcases hcfg : cfg.use_filename_as_sample_name with anchors | b
    · cases hcont : anchors.contains "prokka" <;>
        simp [prokkaSampleName, prokkaUseFilename, hcfg, hcont]
    · cases b
      · cases hpf : cfg.prokka_fn_snames <;>
          simp [prokkaSampleName, prokkaUseFilename, hcfg, hpf]
      · simp [prokkaSampleName, prokkaUseFilename, hcfg]
  have hw : (if (prokkaUseFilename cfg).2 then 1 else 0) =
      (match cfg.use_filename_as_sample_name with
       | UfasnSetting.ofList _ => 0
       | UfasnSetting.ofBool true => 0
       | UfasnSetting.ofBool false =>
         if cfg.prokka_fn_snames then 1 else 0) := by
    rcases hcfg : cfg.use_filename_as_sample_name with anchors | b
    · simp [prokkaUseFilename, hcfg]
    · cases b
      · cases hpf : cfg.prokka_fn_snames <;>
          simp [prokkaUseFilename, hcfg, hpf]
      · simp [prokkaUseFilename, hcfg]
  rw [hname]
  refine ⟨parse_hasKey cfg clean f st h, ?_⟩
  rw [parse_depWarnings cfg clean f st h, hw]

/-- Witness for C2: with the boolean option off and the deprecated flag on,
the record for `c3File` is stored under the file's own name `"somefile"` and
exactly one deprecation warning is emitted. -/
theorem c2_witness :
    hasKey (parse_prokka cfgDep id c3File initProkkaState).1.prokka
      "somefile" = true ∧
    (parse_prokka cfgDep id c3File initProkkaState).1.depWarnings = 0 + 1 := by
  have h := c2_amended_theorem cfgDep id c3File initProkkaState (by decide)
  exact h

/-- C3 (confirmed): on the spec's worked example, with identity name
cleaning and no override, `parse_prokka` produces from the empty state
exactly one record `organism = "Helicobacter pylori"`, `contigs = 12`,
`bases = 1600000`, `CDS = 1500`, stored under sample name `"Sample1"`, with
no exception and no warnings. -/
theorem c3_theorem :
    parse_prokka defaultCfg id c3File initProkkaState = (c3State, none) := by
  decide

/-- C4, counterexample to the claim as stated: the accepted file `c4File`
has `contigs: -5`; the parse completes without error and the stored record
has `contigs = -5`, an integer below the `≥ 0` bound the claim asserts (the
code never checks sign). -/
theorem c4_counterexample :
    (parse_prokka defaultCfg id c4File initProkkaState).2 = none ∧
    pyLookup (recAt (parse_prokka defaultCfg id c4File initProkkaState).1 "S2")
      "contigs" = some (.int (-5)) ∧
    ¬ (0 : Int) ≤ -5 := by decide

/-- C4 (amended): after an aggregation run in which no file raised, every
record in the accumulated mapping contains `contigs` and `bases` holding
integers (possibly negative — no `≥ 0` bound is enforced) and `organism`
holding a string, the latter provided no trailing line of a file re-uses the
field name `organism` (such a line would overwrite it with an integer). -/
theorem c4_amended_theorem (cfg : Config) (clean : String → String)
    (files : List FileDescr) (st' : ProkkaState)
    (hrun : prokkaRun cfg clean files initProkkaState = (st', none))
    (hno : ∀ f ∈ files, ∀ l ∈ (prokkaHeader f).rest, colonHead l ≠ "organism") :
    ∀ s r, pyLookup st'.prokka s = some r →
      strAt r "organism" ∧ intAt r "contigs" ∧ intAt r "bases" :=
  prokkaRun_inv cfg clean files initProkkaState st' hrun hno
    (fun _ r hr => by simp [initProkkaState, pyLookup] at hr)

/-- Witness for C4: a run over exactly `c3File` yields the `c3Record`, which
carries a string organism and integer contigs/bases. -/
theorem c4_witness :
    strAt c3Record "organism" ∧ intAt c3Record "contigs" ∧
    intAt c3Record "bases" :=
  c4_amended_theorem defaultCfg id [c3File] c3State (by decide) (by decide)
    "Sample1" c3Record (by decide)

/-- C5 (confirmed): `parse_prokka` accepts a file iff its first line starts
with `organism:`, its second with `contigs:` and its third with `bases:`
(case-sensitive); a failing file is declined silently — the call returns
with the state unchanged and no exception — while an accepted file gets a
record stored under its resolved sample name. -/
theorem c5_theorem (cfg : Config) (clean : String → String) (f : FileDescr)
    (st : ProkkaState) :
    ((pyStartsWith (prokkaHeader f).l1 "organism:" &&
      pyStartsWith (prokkaHeader f).l2 "contigs:" &&
      pyStartsWith (prokkaHeader f).l3 "bases:") = false →
      parse_prokka cfg clean f st = (st, none)) ∧
    ((pyStartsWith (prokkaHeader f).l1 "organism:" &&
      pyStartsWith (prokkaHeader f).l2 "contigs:" &&
      pyStartsWith (prokkaHeader f).l3 "bases:") = true →
      hasKey (parse_prokka cfg clean f st).1.prokka
        (prokkaSampleName cfg clean f) = true) :=
  ⟨fun h => parse_declined cfg clean f st h,
   fun h => parse_hasKey cfg clean f st h⟩

/-- Witness for C5: `declineFile` fails the signature check and is declined
with the state untouched; `c3File` passes it and a record appears. -/
theorem c5_witness :
    parse_prokka defaultCfg id declineFile initProkkaState =
      (initProkkaState, none) ∧
    hasKey (parse_prokka defaultCfg id c3File initProkkaState).1.prokka
      (prokkaSampleName defaultCfg id c3File) = true :=
  ⟨(c5_theorem defaultCfg id declineFile initProkkaState).1 (by decide),
   (c5_theorem defaultCfg id c3File initProkkaState).2 (by decide)⟩

/-- C6, counterexample to the claim as stated: the claim says a row with
other than two tokens is a parse error for that single file only and the
rest of the run is unaffected; but with `covBadFile` (three tokens in its
data row) followed by the well-formed `covGoodFile`, the whole
`add_rna_transcript_coverage` call returns the raised error — the good file
is never parsed and contributes nothing. -/
theorem c6_counterexample :
    add_rna_transcript_coverage (fun _ => false) id [covBadFile, covGoodFile] =
      .error (.valueError "unpack") := by decide

/-- C6 (amended): a data row with other than two whitespace-separated tokens
makes `parse_rna_transcript_cov` raise an unpacking error; the error
propagates uncaught through the module's file loop, so the remaining
discovered files of the section are not processed (nothing in this code
confines the failure to the single file). -/
theorem c6_amended_theorem (f : DragenFile) (clean : String → String)
    (ignore : String → Bool) (fs1 fs2 : List DragenFile) (acc : DragenAcc)
    (e : PyExn) :
    ((∃ l ∈ dataLines f, (pyWSplit l).length ≠ 2) →
      ∃ e2, parse_rna_transcript_cov f = .error e2) ∧
    (dragenLoop clean fs1 ⟨[], 0, 0⟩ = .ok acc →
      parse_rna_transcript_cov f = .error e →
      add_rna_transcript_coverage ignore clean (fs1 ++ f :: fs2) = .error e) :=
  ⟨fun hbad => parse_cov_error f hbad,
   fun h1 h2 => add_cov_error ignore clean fs1 f fs2 acc e h1 h2⟩

/-- Witness for C6: `covBadFile` raises, and in a run where it precedes
`covGoodFile` the whole section call errors out. -/
theorem c6_witness :
    (∃ e2, parse_rna_transcript_cov covBadFile = .error e2) ∧
    add_rna_transcript_coverage (fun _ => false) id
      ([] ++ covBadFile :: [covGoodFile]) = .error (.valueError "unpack") :=
  ⟨(c6_amended_theorem covBadFile id (fun _ => false) [] [covGoodFile]
      ⟨[], 0, 0⟩ (.valueError "unpack")).1 (by decide),
   (c6_amended_theorem covBadFile id (fun _ => false) [] [covGoodFile]
      ⟨[], 0, 0⟩ (.valueError "unpack")).2 rfl (by decide)⟩

/-- C7, counterexample to the claim as stated: `covDupFile` is a valid file
(filename pattern matches, every data row has two numeric tokens, parsing
succeeds) with two data rows, but both rows parse to the key `1`, so the
returned series has one entry, not two — duplicate first columns collapse. -/
theorem c7_counterexample :
    parse_rna_transcript_cov covDupFile =
      .ok ("d", [(.num ⟨1, 1⟩, .num ⟨7, 10⟩)]) ∧
    (dataLines covDupFile).length = 2 := by decide

/-- C7 (amended): for a valid file with `N` data rows whose parsed
first-column keys are pairwise distinct, the returned series has exactly `N`
entries, each keyed by the parsed first column (with duplicate keys the last
row wins and the series is shorter). -/
theorem c7_amended_theorem (f : DragenFile) (s : String)
    (hre : regexCovName f.fn = some s)
    (h2 : ∀ l ∈ dataLines f, (pyWSplit l).length = 2)
    (hnd : ((dataLines f).map lineKey).Nodup) :
    ∃ series, parse_rna_transcript_cov f = .ok (s, series) ∧
      series.length = (dataLines f).length := by
  obtain ⟨series, hp, hcl⟩ := parse_cov_ok f s hre h2
  refine ⟨series, hp, ?_⟩
  have hlen := covLoop_length (dataLines f) [] series h2 hnd
    (fun l _ => rfl) hcl
  simpa using hlen

/-- Witness for C7: `covGoodFile` has two data rows with distinct keys and
its series has two entries. -/
theorem c7_witness :
    ∃ series, parse_rna_transcript_cov covGoodFile = .ok ("b", series) ∧
      series.length = (dataLines covGoodFile).length :=
  c7_amended_theorem covGoodFile "b" (by decide) (by decide) (by decide)

/-- C8 (confirmed): the first line is skipped as the header; every data row
with exactly two tokens is converted token-wise — `float()` on success,
otherwise the original string is retained — and the file parses
successfully; with distinct keys, each row's entry is retrievable, and a
row whose second token fails conversion stores that token's original
string. -/
theorem c8_theorem (f : DragenFile) (s : String)
    (hre : regexCovName f.fn = some s)
    (h2 : ∀ l ∈ dataLines f, (pyWSplit l).length = 2) :
    ∃ series, parse_rna_transcript_cov f = .ok (s, series) ∧
      (((dataLines f).map lineKey).Nodup →
        ∀ l ∈ dataLines f, pyLookup series (lineKey l) = some (lineVal l)) ∧
      ∀ l ∈ dataLines f, (pyFloat ((pyWSplit l).getD 1 "")).isNone = true →
        lineVal l = .str ((pyWSplit l).getD 1 "") := by
  obtain ⟨series, hp, hcl⟩ := parse_cov_ok f s hre h2
  refine ⟨series, hp,
    fun hnd => covLoop_lookup_mem _ _ _ h2 hnd hcl, ?_⟩
  intro l _ hfail
  have hn := Option.isNone_iff_eq_none.mp hfail
  unfold lineVal convToken
  rw [hn]

/-- Witness for C8: in `covNAFile` the coverage token `NA` fails conversion,
the file still parses, and the stored value is the string `"NA"`. -/
theorem c8_witness :
    ∃ series, parse_rna_transcript_cov covNAFile = .ok ("c", series) ∧
      (((dataLines covNAFile).map lineKey).Nodup →
        ∀ l ∈ dataLines covNAFile, pyLookup series (lineKey l) = some (lineVal l)) ∧
      ∀ l ∈ dataLines covNAFile, (pyFloat ((pyWSplit l).getD 1 "")).isNone = true →
        lineVal l = .str ((pyWSplit l).getD 1 "") :=
  c8_theorem covNAFile "c" (by decide) (by decide)

/-- C9 (confirmed): when an aggregation run yields zero sample records, the
prokka module raises the distinct `ModuleNoSamplesFound` signal instead of
succeeding with an empty mapping (so no report output is registered), and
the dragen transcript-coverage section returns early with the empty name
set, without adding its report section. -/
theorem c9_theorem (cfg : Config) (clean : String → String)
    (ignore : String → Bool) (files : List FileDescr) (st : ProkkaState)
    (cleanD : String → String) (ignoreD : String → Bool)
    (dfiles : List DragenFile) (acc : DragenAcc) :
    (prokkaRun cfg clean files initProkkaState = (st, none) →
      ignoreSamples ignore st.prokka = [] →
      prokkaModuleInit cfg clean ignore files = .error .noSamplesFound) ∧
    (dragenLoop cleanD dfiles ⟨[], 0, 0⟩ = .ok acc →
      ignoreSamples ignoreD acc.data = [] →
      add_rna_transcript_coverage ignoreD cleanD dfiles =
        .ok ⟨false, [], acc.dupDebugs, acc.dataSources⟩) :=
  ⟨fun h1 h2 => init_noSamples cfg clean ignore files st h1 h2,
   fun h1 h2 => addCov_noSamples ignoreD cleanD dfiles acc h1 h2⟩

/-- Witness for C9: with no discovered files at all, the prokka init raises
`ModuleNoSamplesFound` and the dragen section returns the no-section,
empty-name-set result. -/
theorem c9_witness :
    prokkaModuleInit defaultCfg id (fun _ => false) [] =
      .error .noSamplesFound ∧
    add_rna_transcript_coverage (fun _ => false) id [] =
      .ok ⟨false, [], 0, 0⟩ :=
  ⟨(c9_theorem defaultCfg id (fun _ => false) [] initProkkaState
      id (fun _ => false) [] ⟨[], 0, 0⟩).1 rfl rfl,
   (c9_theorem defaultCfg id (fun _ => false) [] initProkkaState
      id (fun _ => false) [] ⟨[], 0, 0⟩).2 rfl rfl⟩

/-- C10 (confirmed): for an accepted file the fresh record is inserted and
its organism field stored before the contigs integer is parsed; hence when
the contigs value is not an integer the parser raises an uncaught
`ValueError` while the mapping retains a partial record for the sample with
the organism key but neither contigs nor bases. -/
theorem c10_theorem (cfg : Config) (clean : String → String) (f : FileDescr)
    (st : ProkkaState)
    (h : prokkaAccepts f = true)
    (hc : pyInt (colonIndex1 (prokkaHeader f).l2) = none) :
    (parse_prokka cfg clean f st).2 =
      some (.valueError "invalid literal for int - contigs") ∧
    pyLookup (parse_prokka cfg clean f st).1.prokka
      (prokkaSampleName cfg clean f) =
      some [("organism", .str (prokkaOrganism (prokkaHeader f).l1))] ∧
    pyLookup (recAt (parse_prokka cfg clean f st).1
      (prokkaSampleName cfg clean f)) "contigs" = none ∧
    pyLookup (recAt (parse_prokka cfg clean f st).1
      (prokkaSampleName cfg clean f)) "bases" = none := by
  have hmain := parse_contigs_fail cfg clean f st h hc
  refine ⟨hmain.1, hmain.2, ?_, ?_⟩
  · simp only [recAt, hmain.2]
    simp [pyLookup]
  · simp only [recAt, hmain.2]
    simp [pyLookup]

/-- Witness for C10: `c10File` has `contigs: x`; the parse raises and the
mapping keeps a record for `S3` holding only the organism field. -/
theorem c10_witness :
    (parse_prokka defaultCfg id c10File initProkkaState).2 =
      some (.valueError "invalid literal for int - contigs") ∧
    pyLookup (parse_prokka defaultCfg id c10File initProkkaState).1.prokka
      (prokkaSampleName defaultCfg id c10File) =
      some [("organism", .str (prokkaOrganism (prokkaHeader c10File).l1))] ∧
    pyLookup (recAt (parse_prokka defaultCfg id c10File initProkkaState).1
      (prokkaSampleName defaultCfg id c10File)) "contigs" = none ∧
    pyLookup (recAt (parse_prokka defaultCfg id c10File initProkkaState).1
      (prokkaSampleName defaultCfg id c10File)) "bases" = none :=
  c10_theorem defaultCfg id c10File initProkkaState (by decide) (by decide)
